import Mathlib

/-!
# Verification of the HoneyBadger parser / code generator core

A shallow embedding of the repository's core (grammar data model,
token-stream parser, code generator) together with theorems settling the
frozen claims about it.

Translation conventions:
* `src/grammar.rs` AST types become mutually inductive Lean types; the
  borrowed `OwnedSlice` string views become `String` (the spec treats them
  as immutable byte views with string equality).
* The parser (`src/parser.rs`) is embedded as explicit state passing over a
  token list, with a `fuel : Nat` argument standing in for Rust's unbounded
  recursion; `panic!` paths become `Except.error`.
* The generator (`src/codegen.rs`) appends to an output buffer only, so it
  is embedded as pure `String`-producing functions parameterised by the
  `minify` flag and the current indentation `dent`; it also carries a fuel
  argument so that every definition evaluates by kernel reduction.
* The tokenizer is not part of the sources; where a claim needs it, it is
  modelled from the spec (see `lexList`).
-/

namespace Badger

/-- `grammar.rs` `LiteralValue`: tagged union of literal forms.  Floats and
strings carry their original textual form.  `u64` payloads are modelled as
`Nat` (no arithmetic is ever performed on them). -/
inductive LiteralValue where
  | LiteralUndefined
  | LiteralNull
  | LiteralTrue
  | LiteralFalse
  | LiteralInteger (value : Nat)
  | LiteralFloat (value : String)
  | LiteralString (value : String)
deriving DecidableEq, Repr

/-- `grammar.rs` `Parameter`. -/
structure Parameter where
  name : String
deriving DecidableEq, Repr

/-- `grammar.rs` `OperatorType`: one variant per operator token. -/
inductive OperatorType where
  | FatArrow
  | Accessor
  | New
  | Increment
  | Decrement
  | LogicalNot
  | BitwiseNot
  | Typeof
  | Void
  | Delete
  | Multiplication
  | Division
  | Remainder
  | Exponent
  | Addition
  | Substraction
  | BitShiftLeft
  | BitShiftRight
  | UBitShiftRight
  | Lesser
  | LesserEquals
  | Greater
  | GreaterEquals
  | Instanceof
  | In
  | StrictEquality
  | StrictInequality
  | Equality
  | Inequality
  | BitwiseAnd
  | BitwiseXor
  | BitwiseOr
  | LogicalAnd
  | LogicalOr
  | Conditional
  | Assign
  | AddAssign
  | SubstractAssign
  | ExponentAssign
  | MultiplyAssign
  | DivideAssign
  | RemainderAssign
  | BSLAssign
  | BSRAssign
  | UBSRAssign
  | BitAndAssign
  | BitXorAssign
  | BitOrAssign
  | Spread
deriving DecidableEq, Repr

namespace OperatorType

/-- `grammar.rs` `OperatorType::binding_power` (the `u8` result is modelled
as `Nat`; all table entries are below 256 so no overflow is involved). -/
def binding_power : OperatorType → Nat
  | FatArrow | Accessor => 18
  | New => 17
  | Increment | Decrement => 16
  | LogicalNot | BitwiseNot | Typeof | Void | Delete => 15
  | Multiplication | Division | Remainder | Exponent => 14
  | Addition | Substraction => 13
  | BitShiftLeft | BitShiftRight | UBitShiftRight => 12
  | Lesser | LesserEquals | Greater | GreaterEquals | Instanceof | In => 11
  | StrictEquality | StrictInequality | Equality | Inequality => 10
  | BitwiseAnd => 9
  | BitwiseXor => 8
  | BitwiseOr => 7
  | LogicalAnd => 6
  | LogicalOr => 5
  | Conditional => 4
  | Assign | AddAssign | SubstractAssign | ExponentAssign | MultiplyAssign
  | DivideAssign | RemainderAssign | BSLAssign | BSRAssign | UBSRAssign
  | BitAndAssign | BitXorAssign | BitOrAssign => 3
  | Spread => 1

/-- `grammar.rs` `OperatorType::prefix` (renamed: `prefix` is a Lean
keyword). -/
def prefixOp : OperatorType → Bool
  | LogicalNot | BitwiseNot | Typeof | Void | Delete | New | Spread
  | Increment | Decrement | Addition | Substraction => true
  | _ => false

/-- `grammar.rs` `OperatorType::infix` (renamed: `infix` is a Lean
keyword). -/
def infixOp : OperatorType → Bool
  | FatArrow | Accessor | Multiplication | Division | Remainder | Exponent
  | StrictEquality | StrictInequality | Equality | Inequality
  | Lesser | LesserEquals | Greater | GreaterEquals | Instanceof | In
  | BitShiftLeft | BitShiftRight | UBitShiftRight
  | BitwiseAnd | BitwiseXor | BitwiseOr | LogicalAnd | LogicalOr
  | Conditional | Addition | Substraction
  | Assign | AddAssign | SubstractAssign | ExponentAssign | MultiplyAssign
  | DivideAssign | RemainderAssign | BSLAssign | BSRAssign | UBSRAssign
  | BitAndAssign | BitXorAssign | BitOrAssign => true
  | _ => false

/-- `grammar.rs` `OperatorType::assignment`. -/
def assignment : OperatorType → Bool
  | Assign | AddAssign | SubstractAssign | ExponentAssign | MultiplyAssign
  | DivideAssign | RemainderAssign | BSLAssign | BSRAssign | UBSRAssign
  | BitAndAssign | BitXorAssign | BitOrAssign => true
  | _ => false

end OperatorType

/-- `grammar.rs` `VariableDeclarationKind`. -/
inductive VariableDeclarationKind where
  | Var
  | Let
  | Const
deriving DecidableEq, Repr

mutual

/-- `grammar.rs` `Expression`. -/
inductive Expression where
  | This
  | Identifier (name : String)
  | Literal (value : LiteralValue)
  | Array (items : List Expression)
  | Sequence (items : List Expression)
  | Object (members : List ObjectMember)
  | Member (object : Expression) (property : String)
  | ComputedMember (object : Expression) (property : Expression)
  | Call (callee : Expression) (arguments : List Expression)
  | Binary (left : Expression) (operator : OperatorType) (right : Expression)
  | Prefix (operator : OperatorType) (operand : Expression)
  | Postfix (operator : OperatorType) (operand : Expression)
  | Conditional (test : Expression) (consequent : Expression) (alternate : Expression)
  | ArrowFunction (params : List Parameter) (body : Statement)
  | Function (name : Option String) (params : List Parameter) (body : List Statement)

/-- `grammar.rs` `ObjectMember`. -/
inductive ObjectMember where
  | Shorthand (key : String)
  | Literal (key : String) (value : Expression)
  | Computed (key : Expression) (value : Expression)
  | Method (name : String) (params : List Parameter) (body : List Statement)
  | ComputedMethod (name : Expression) (params : List Parameter) (body : List Statement)

/-- `grammar.rs` `ClassMember`. -/
inductive ClassMember where
  | Constructor (params : List Parameter) (body : List Statement)
  | Method (is_static : Bool) (name : String) (params : List Parameter) (body : List Statement)
  | Property (is_static : Bool) (name : String) (value : Expression)

/-- `grammar.rs` `VariableDeclarator` (a single-constructor inductive so it
can live in the mutual block; accessors are defined below). -/
inductive VariableDeclarator where
  | mk (name : String) (value : Option Expression)

/-- `grammar.rs` `Statement`. -/
inductive Statement where
  | Block (body : List Statement)
  | Transparent (body : List Statement)
  | Labeled (label : String) (body : Statement)
  | VariableDeclaration (kind : VariableDeclarationKind) (declarators : List VariableDeclarator)
  | Expression (value : Expression)
  | Return (value : Option Expression)
  | Break (label : Option String)
  | Function (name : String) (params : List Parameter) (body : List Statement)
  | If (test : Expression) (consequent : Statement) (alternate : Option Statement)
  | While (test : Expression) (body : Statement)
  | For (init : Option Statement) (test : Option Expression)
      (update : Option Expression) (body : Statement)
  | ForIn (left : Statement) (right : Expression) (body : Statement)
  | ForOf (left : Statement) (right : Expression) (body : Statement)
  | Class (name : String) (superClass : Option String) (body : List ClassMember)
  | Throw (value : Expression)

end

/-- Accessor for `VariableDeclarator.name`. -/
def VariableDeclarator.name : VariableDeclarator → String
  | .mk n _ => n

/-- Accessor for `VariableDeclarator.value`. -/
def VariableDeclarator.value : VariableDeclarator → Option Expression
  | .mk _ v => v

/-- `grammar.rs` `Program`: the owned source buffer and the top-level
statement list. -/
structure Program where
  source : String
  body : List Statement

/-- `grammar.rs` `Expression::binding_power`, used by the generator to
decide parenthesization. -/
def Expression.binding_power : Expression → Nat
  | .Member _ _ => 18
  | .ArrowFunction _ _ => 18
  | .Call _ _ => 17
  | .Prefix _ _ => 15
  | .Binary _ operator _ => operator.binding_power
  | .Postfix operator _ => operator.binding_power
  | .Conditional _ _ _ => 4
  | _ => 100

/-! ## Token alphabet

The token alphabet consumed by the parser, as listed in the spec and
matched against in `parser.rs`. -/

/-- The lexer's token alphabet. -/
inductive Token where
  | Identifier (name : String)
  | Literal (value : LiteralValue)
  | Operator (op : OperatorType)
  | This
  | Function
  | Class
  | Extends
  | Static
  | Var
  | Let
  | Const
  | Return
  | Break
  | Throw
  | If
  | Else
  | While
  | For
  | In
  | Of
  | Colon
  | Semicolon
  | Comma
  | ParenOn
  | ParenOff
  | BracketOn
  | BracketOff
  | BlockOn
  | BlockOff
  | LineTermination
deriving DecidableEq, Repr

/-! ## Parser (`parser.rs`)

The `Parser` struct holds the peekable tokenizer and the `allow_asi` flag;
here the remaining token list plays the role of the tokenizer.  Every
`panic!` becomes an `Except.error`.  Rust's unbounded recursion is embedded
with an explicit `fuel` argument (running out of fuel is an error that
never occurs on the concrete inputs used below). -/

/-- Parser state: the not-yet-consumed tokens and the `allow_asi` flag. -/
structure PState where
  tokens : List Token
  allow_asi : Bool
deriving Repr

/-- `Parser::handle_line_termination`: skip `LineTermination` tokens,
setting `allow_asi` whenever one was skipped. -/
def handleLT : List Token → Bool → PState
  | [], asi => ⟨[], asi⟩
  | t :: rest, asi =>
    if t = Token.LineTermination then handleLT rest true else ⟨t :: rest, asi⟩

/-- `handle_line_termination` acting on a parser state (both `consume` and
`lookahead` begin with this skip). -/
def handleLineTermination (st : PState) : PState :=
  handleLT st.tokens st.allow_asi

/-- `Parser::consume`: skip line terminations, pop the next token (error on
end of stream), clear `allow_asi`. -/
def consume (st : PState) : Except String (Token × PState) :=
  match (handleLineTermination st).tokens with
  | [] => .error "Unexpected end of program"
  | t :: rest => .ok (t, ⟨rest, false⟩)

/-- The `expect!` macro specialised to a unit pattern: consume and compare
against the expected token. -/
def expectToken (t : Token) (st : PState) : Except String PState :=
  match consume st with
  | .ok (u, st) => if u = t then .ok st else .error "Unexpected token"
  | .error e => .error e

/-- The `expect!` macro at pattern `Identifier(name) => name`. -/
def expectIdentifier (st : PState) : Except String (String × PState) :=
  match consume st with
  | .ok (.Identifier name, st) => .ok (name, st)
  | .ok _ => .error "Unexpected token"
  | .error e => .error e

/-- The `expect!` macro at pattern `Operator(op) => op`. -/
def expectOperator (st : PState) : Except String (OperatorType × PState) :=
  match consume st with
  | .ok (.Operator op, st) => .ok (op, st)
  | .ok _ => .error "Unexpected token"
  | .error e => .error e

/-- The `allow!` macro: if the lookahead equals `t`, consume it and return
`true`; otherwise do nothing (the line-termination skip performed by
`lookahead` persists either way). -/
def allowTok (t : Token) (st : PState) : Bool × PState :=
  let look := handleLineTermination st
  match look.tokens with
  | u :: rest => if u = t then (true, ⟨rest, false⟩) else (false, look)
  | [] => (false, look)

/-- The `statement!` macro: after a statement that requires a semicolon,
accept `Semicolon` (consumed), `ParenOff`, `BlockOff` or end of stream
(not consumed) as terminator; otherwise the terminator is virtual when
`allow_asi` is set, and a fatal error when it is not. -/
def statement_end (value : Statement) (st : PState) :
    Except String (Statement × PState) :=
  match (handleLineTermination st).tokens.head? with
  | some .Semicolon =>
    (match consume (handleLineTermination st) with
     | .ok (_, st) => .ok (value, st)
     | .error e => .error e)
  | some .ParenOff => .ok (value, handleLineTermination st)
  | some .BlockOff => .ok (value, handleLineTermination st)
  | none => .ok (value, handleLineTermination st)
  | some _ =>
    if (handleLineTermination st).allow_asi then
      .ok (value, handleLineTermination st)
    else .error "Unexpected token"

/-- `Parser::parameter`: a parameter is a bare identifier. -/
def parameter (st : PState) : Except String (Parameter × PState) :=
  match expectIdentifier st with
  | .ok (name, st) => .ok (⟨name⟩, st)
  | .error e => .error e

/-- The element-wise coercion inside `arrow_function_expression`: every
element of a `Sequence` must be an identifier. -/
def sequence_params : List Expression → Except String (List Parameter)
  | [] => .ok []
  | .Identifier name :: rest =>
    match sequence_params rest with
    | .ok ps => .ok (⟨name⟩ :: ps)
    | .error e => .error e
  | _ :: _ => .error "Cannot cast expression to a parameter"

/-- `arrow_function_expression`'s coercion of the left-hand expression into
an arrow parameter list. -/
def arrow_params : Option Expression → Except String (List Parameter)
  | none => .ok []
  | some (.Identifier name) => .ok [⟨name⟩]
  | some (.Sequence list) => sequence_params list
  | some _ => .error "Cannot cast expression to parameters"

/-- The tokens of the experimental ASI gate at the top of the
left-denotation loop in `Parser::expression`. -/
def asiGate : Option Token → Bool
  | some .ParenOn => true
  | some .BracketOn => true
  | some (.Operator .Division) => true
  | some (.Operator .Addition) => true
  | some (.Operator .Substraction) => true
  | _ => false

mutual

/-- `Parser::array_expression` (the leading `BracketOn` was consumed by the
caller). -/
def array_expression (fuel : Nat) (st : PState) :
    Except String (Expression × PState) :=
  match fuel with
  | 0 => .error "Out of fuel"
  | fuel+1 => do
    let (items, st) ← expression_list fuel Token.BracketOff st
    .ok (.Array items, st)

/-- `Parser::object_member`. -/
def object_member (fuel : Nat) (st : PState) :
    Except String (ObjectMember × PState) :=
  match fuel with
  | 0 => .error "Out of fuel"
  | fuel+1 => do
    let (tok, st) ← consume st
    match tok with
    | .Identifier key | .Literal (.LiteralString key) =>
      (match allowTok .Colon st with
       | (true, st) => do
         let (value, st) ← expression fuel 0 st
         .ok (.Literal key value, st)
       | (false, st) => .ok (.Shorthand key, st))
    | .BracketOn => do
      let (key, st) ← expression fuel 0 st
      let st ← expectToken .BracketOff st
      let st ← expectToken .Colon st
      let (value, st) ← expression fuel 0 st
      .ok (.Computed key value, st)
    | _ => .error "Expected object key"

/-- `Parser::object_expression` (the leading `BlockOn` was consumed by the
caller). -/
def object_expression (fuel : Nat) (st : PState) :
    Except String (Expression × PState) :=
  match fuel with
  | 0 => .error "Out of fuel"
  | fuel+1 => do
    let (members, st) ← object_member_list fuel st
    .ok (.Object members, st)

/-- `Parser::block_or_statement`. -/
def block_or_statement (fuel : Nat) (st : PState) :
    Except String (Statement × PState) :=
  match fuel with
  | 0 => .error "Out of fuel"
  | fuel+1 =>
    let look := handleLineTermination st
    match look.tokens.head? with
    | some .BlockOn => do
      let (body, st) ← block_body fuel look
      .ok (.Block body, st)
    | _ => expression_statement fuel look

/-- `Parser::block_body`. -/
def block_body (fuel : Nat) (st : PState) :
    Except String (List Statement × PState) :=
  match fuel with
  | 0 => .error "Out of fuel"
  | fuel+1 => do
    let st ← expectToken .BlockOn st
    block_body_loop fuel st

/-- The statement loop inside `Parser::block_body`. -/
def block_body_loop (fuel : Nat) (st : PState) :
    Except String (List Statement × PState) :=
  match fuel with
  | 0 => .error "Out of fuel"
  | fuel+1 =>
    match allowTok .BlockOff st with
    | (true, st) => .ok ([], st)
    | (false, st) => do
      let (sOpt, st) ← statement fuel st
      match sOpt with
      | none => .error "Unexpected end of statements block"
      | some s => do
        let (rest, st) ← block_body_loop fuel st
        .ok (s :: rest, st)

/-- `Parser::arrow_function_expression`: coerce the left-hand expression to
a parameter list, then parse the body (block or single expression). -/
def arrow_function_expression (fuel : Nat) (p : Option Expression)
    (st : PState) : Except String (Expression × PState) :=
  match fuel with
  | 0 => .error "Out of fuel"
  | fuel+1 => do
    let params ← arrow_params p
    let look := handleLineTermination st
    match look.tokens.head? with
    | some .BlockOn => do
      let (body, st) ← block_body fuel look
      .ok (.ArrowFunction params (.Block body), st)
    | _ => do
      let (e, st) ← expression fuel 0 look
      .ok (.ArrowFunction params (.Expression e), st)

/-- `Parser::prefix_expression`.  (The source calls
`operator.binding_power(true)`; the `binding_power` in `grammar.rs` takes
no hint argument.) -/
def prefix_expression (fuel : Nat) (operator : OperatorType) (st : PState) :
    Except String (Expression × PState) :=
  match fuel with
  | 0 => .error "Out of fuel"
  | fuel+1 =>
    let bp := operator.binding_power
    if operator.prefixOp = false then .error "Unexpected operator"
    else do
      let (operand, st) ← expression fuel bp st
      .ok (.Prefix operator operand, st)

/-- `Parser::infix_expression`. -/
def infix_expression (fuel : Nat) (left : Expression) (bp : Nat)
    (st : PState) : Except String (Expression × PState) :=
  match fuel with
  | 0 => .error "Out of fuel"
  | fuel+1 => do
    let (op, st) ← expectOperator st
    match op with
    | .Increment | .Decrement => .ok (.Postfix op left, st)
    | .Accessor => do
      let (key, st) ← expectIdentifier st
      .ok (.Member left key, st)
    | .Conditional => do
      let (consequent, st) ← expression fuel bp st
      let st ← expectToken .Colon st
      let (alternate, st) ← expression fuel bp st
      .ok (.Conditional left consequent alternate, st)
    | .FatArrow => arrow_function_expression fuel (some left) st
    | _ =>
      if op.infixOp = false then .error "Unexpected operator"
      else do
        let (right, st) ← expression fuel bp st
        .ok (.Binary left op right, st)

/-- `Parser::function_expression` (optional name). -/
def function_expression (fuel : Nat) (st : PState) :
    Except String (Expression × PState) :=
  match fuel with
  | 0 => .error "Out of fuel"
  | fuel+1 =>
    let look := handleLineTermination st
    match look.tokens with
    | Token.Identifier n :: rest => do
      let st ← expectToken .ParenOn ⟨rest, false⟩
      let (params, st) ← parameter_list fuel st
      let (body, st) ← block_body fuel st
      .ok (.Function (some n) params body, st)
    | _ => do
      let st ← expectToken .ParenOn look
      let (params, st) ← parameter_list fuel st
      let (body, st) ← block_body fuel st
      .ok (.Function none params body, st)

/-- `Parser::sequence_expression`: grouped expression, sequence, or the
head of a parenthesised arrow-function parameter list (the leading
`ParenOn` was consumed by the caller). -/
def sequence_expression (fuel : Nat) (st : PState) :
    Except String (Expression × PState) :=
  match fuel with
  | 0 => .error "Out of fuel"
  | fuel+1 =>
    match allowTok .ParenOff st with
    | (true, st) => do
      let st ← expectToken (.Operator .FatArrow) st
      arrow_function_expression fuel none st
    | (false, st) => do
      let (first, st) ← expression fuel 0 st
      match allowTok .ParenOff st with
      | (true, st) => .ok (first, st)
      | (false, st) => do
        let (rest, st) ← sequence_tail fuel st
        .ok (.Sequence (first :: rest), st)

/-- The comma loop inside `Parser::sequence_expression`. -/
def sequence_tail (fuel : Nat) (st : PState) :
    Except String (List Expression × PState) :=
  match fuel with
  | 0 => .error "Out of fuel"
  | fuel+1 =>
    match allowTok .ParenOff st with
    | (true, st) => .ok ([], st)
    | (false, st) => do
      let st ← expectToken .Comma st
      let (e, st) ← expression fuel 0 st
      let (rest, st) ← sequence_tail fuel st
      .ok (e :: rest, st)

/-- `Parser::expression`: Pratt loop entry; null denotation on the consumed
token, then the left-denotation loop. -/
def expression (fuel : Nat) (lbp : Nat) (st : PState) :
    Except String (Expression × PState) :=
  match fuel with
  | 0 => .error "Out of fuel"
  | fuel+1 => do
    let (tok, st) ← consume st
    let (left, st) ←
      (match tok with
       | .This => .ok (Expression.This, st)
       | .Identifier value => .ok (Expression.Identifier value, st)
       | .Literal value => .ok (Expression.Literal value, st)
       | .Operator optype => prefix_expression fuel optype st
       | .ParenOn => sequence_expression fuel st
       | .BracketOn => array_expression fuel st
       | .BlockOn => object_expression fuel st
       | .Function => function_expression fuel st
       | _ => .error "Unexpected token")
    expression_loop fuel lbp left st

/-- The left-denotation (`'right`) loop of `Parser::expression`, including
the experimental ASI gate. -/
def expression_loop (fuel : Nat) (lbp : Nat) (left : Expression)
    (st : PState) : Except String (Expression × PState) :=
  match fuel with
  | 0 => .error "Out of fuel"
  | fuel+1 =>
    if asiGate (handleLineTermination st).tokens.head? &&
        (handleLineTermination st).allow_asi then
      .ok (left, handleLineTermination st)
    else
      let rbp :=
        match (handleLineTermination st).tokens.head? with
        | some (.Operator op) => op.binding_power
        | _ => 0
      if lbp > rbp then .ok (left, handleLineTermination st)
      else
        match (handleLineTermination st).tokens.head? with
        | some (.Operator _) => do
          let (left, st) ←
            infix_expression fuel left rbp (handleLineTermination st)
          expression_loop fuel lbp left st
        | some .ParenOn => do
          let st ← expectToken .ParenOn (handleLineTermination st)
          let (arguments, st) ← expression_list fuel .ParenOff st
          expression_loop fuel lbp (.Call left arguments) st
        | some .BracketOn => do
          let st ← expectToken .BracketOn (handleLineTermination st)
          let (property, st) ← expression fuel 0 st
          let st ← expectToken .BracketOff st
          expression_loop fuel lbp (.ComputedMember left property) st
        | _ => .ok (left, handleLineTermination st)

/-- The `list!` macro at item `expression(0)` with terminator `endTok`
(after an item, a token that is neither `Comma` nor the terminator is
silently skipped and the loop continues, as in the macro). -/
def expression_list (fuel : Nat) (endTok : Token) (st : PState) :
    Except String (List Expression × PState) :=
  match fuel with
  | 0 => .error "Out of fuel"
  | fuel+1 =>
    match allowTok endTok st with
    | (true, st) => .ok ([], st)
    | (false, st) => do
      let (item, st) ← expression fuel 0 st
      let (tok, st) ← consume st
      if tok = Token.Comma then
        match allowTok endTok st with
        | (true, st) => .ok ([item], st)
        | (false, st) => do
          let (rest, st) ← expression_list fuel endTok st
          .ok (item :: rest, st)
      else if tok = endTok then .ok ([item], st)
      else do
        let (rest, st) ← expression_list fuel endTok st
        .ok (item :: rest, st)

/-- The `list!` macro at item `parameter()` with terminator `ParenOff`. -/
def parameter_list (fuel : Nat) (st : PState) :
    Except String (List Parameter × PState) :=
  match fuel with
  | 0 => .error "Out of fuel"
  | fuel+1 =>
    match allowTok .ParenOff st with
    | (true, st) => .ok ([], st)
    | (false, st) => do
      let (item, st) ← parameter st
      let (tok, st) ← consume st
      if tok = Token.Comma then
        match allowTok .ParenOff st with
        | (true, st) => .ok ([item], st)
        | (false, st) => do
          let (rest, st) ← parameter_list fuel st
          .ok (item :: rest, st)
      else if tok = Token.ParenOff then .ok ([item], st)
      else do
        let (rest, st) ← parameter_list fuel st
        .ok (item :: rest, st)

/-- The `list!` macro at item `object_member()` with terminator
`BlockOff`. -/
def object_member_list (fuel : Nat) (st : PState) :
    Except String (List ObjectMember × PState) :=
  match fuel with
  | 0 => .error "Out of fuel"
  | fuel+1 =>
    match allowTok .BlockOff st with
    | (true, st) => .ok ([], st)
    | (false, st) => do
      let (item, st) ← object_member fuel st
      let (tok, st) ← consume st
      if tok = Token.Comma then
        match allowTok .BlockOff st with
        | (true, st) => .ok ([item], st)
        | (false, st) => do
          let (rest, st) ← object_member_list fuel st
          .ok (item :: rest, st)
      else if tok = Token.BlockOff then .ok ([item], st)
      else do
        let (rest, st) ← object_member_list fuel st
        .ok (item :: rest, st)

/-- The declarator loop of `Parser::variable_declaration_statement`: each
declarator is `Identifier = expression(0)` with mandatory initializer. -/
def variable_declarators (fuel : Nat) (st : PState) :
    Except String (List VariableDeclarator × PState) :=
  match fuel with
  | 0 => .error "Out of fuel"
  | fuel+1 => do
    let (name, st) ← expectIdentifier st
    let st ← expectToken (.Operator .Assign) st
    let (value, st) ← expression fuel 0 st
    match allowTok .Comma st with
    | (true, st) => do
      let (rest, st) ← variable_declarators fuel st
      .ok (.mk name (some value) :: rest, st)
    | (false, st) => .ok ([.mk name (some value)], st)

/-- `Parser::variable_declaration_statement`. -/
def variable_declaration_statement (fuel : Nat)
    (kind : VariableDeclarationKind) (st : PState) :
    Except String (Statement × PState) :=
  match fuel with
  | 0 => .error "Out of fuel"
  | fuel+1 => do
    let (declarators, st) ← variable_declarators fuel st
    statement_end (.VariableDeclaration kind declarators) st

/-- `Parser::expression_statement`. -/
def expression_statement (fuel : Nat) (st : PState) :
    Except String (Statement × PState) :=
  match fuel with
  | 0 => .error "Out of fuel"
  | fuel+1 => do
    let (e, st) ← expression fuel 0 st
    statement_end (.Expression e) st

/-- `Parser::return_statement`.  (`grammar.rs` gives `Return` an optional
value; the parser always supplies one, `ReturnStatement(self.expression(0))`
in the source.) -/
def return_statement (fuel : Nat) (st : PState) :
    Except String (Statement × PState) :=
  match fuel with
  | 0 => .error "Out of fuel"
  | fuel+1 => do
    let (e, st) ← expression fuel 0 st
    statement_end (.Return (some e)) st

/-- `Parser::if_statement`. -/
def if_statement (fuel : Nat) (st : PState) :
    Except String (Statement × PState) :=
  match fuel with
  | 0 => .error "Out of fuel"
  | fuel+1 => do
    let st ← expectToken .ParenOn st
    let (test, st) ← expression fuel 0 st
    let st ← expectToken .ParenOff st
    let (consequent, st) ← block_or_statement fuel st
    match allowTok .Else st with
    | (true, st) =>
      (match allowTok .If st with
       | (true, st) => do
         let (alt, st) ← if_statement fuel st
         statement_end (.If test consequent (some alt)) st
       | (false, st) => do
         let (alt, st) ← block_or_statement fuel st
         statement_end (.If test consequent (some alt)) st)
    | (false, st) => statement_end (.If test consequent none) st

/-- `Parser::while_statement`. -/
def while_statement (fuel : Nat) (st : PState) :
    Except String (Statement × PState) :=
  match fuel with
  | 0 => .error "Out of fuel"
  | fuel+1 => do
    let st ← expectToken .ParenOn st
    let (test, st) ← expression fuel 0 st
    let st ← expectToken .ParenOff st
    let (body, st) ← block_or_statement fuel st
    statement_end (.While test body) st

/-- `Parser::function_statement`. -/
def function_statement (fuel : Nat) (st : PState) :
    Except String (Statement × PState) :=
  match fuel with
  | 0 => .error "Out of fuel"
  | fuel+1 => do
    let (name, st) ← expectIdentifier st
    let st ← expectToken .ParenOn st
    let (params, st) ← parameter_list fuel st
    let (body, st) ← block_body fuel st
    .ok (Statement.Function name params body, st)

/-- `Parser::class_member`. -/
def class_member (fuel : Nat) (name : String) (is_static : Bool)
    (st : PState) : Except String (ClassMember × PState) :=
  match fuel with
  | 0 => .error "Out of fuel"
  | fuel+1 =>
    let look := handleLineTermination st
    match look.tokens.head? with
    | some .ParenOn =>
      if is_static = false && name = "constructor" then do
        let st ← expectToken .ParenOn look
        let (params, st) ← parameter_list fuel st
        let (body, st) ← block_body fuel st
        .ok (ClassMember.Constructor params body, st)
      else do
        let st ← expectToken .ParenOn look
        let (params, st) ← parameter_list fuel st
        let (body, st) ← block_body fuel st
        .ok (ClassMember.Method is_static name params body, st)
    | some (.Operator .Assign) =>
      (match consume look with
       | .ok (_, st) => do
         let (value, st) ← expression fuel 0 st
         .ok (ClassMember.Property is_static name value, st)
       | .error e => .error e)
    | _ => .error "Unexpected token"

/-- The `'members` loop of `Parser::class_statement`. -/
def class_body (fuel : Nat) (st : PState) :
    Except String (List ClassMember × PState) :=
  match fuel with
  | 0 => .error "Out of fuel"
  | fuel+1 => do
    let (tok, st) ← consume st
    match tok with
    | .Identifier name => do
      let (m, st) ← class_member fuel name false st
      let (rest, st) ← class_body fuel st
      .ok (m :: rest, st)
    | .Static => do
      let (name, st) ← expectIdentifier st
      let (m, st) ← class_member fuel name true st
      let (rest, st) ← class_body fuel st
      .ok (m :: rest, st)
    | .Semicolon => class_body fuel st
    | .BlockOff => .ok ([], st)
    | _ => .error "Unexpected token"

/-- `Parser::class_statement`. -/
def class_statement (fuel : Nat) (st : PState) :
    Except String (Statement × PState) :=
  match fuel with
  | 0 => .error "Out of fuel"
  | fuel+1 => do
    let (name, st) ← expectIdentifier st
    let (superClass, st) ←
      (match allowTok .Extends st with
       | (true, st) =>
         (match expectIdentifier st with
          | .ok (n, st) => .ok ((some n : Option String), st)
          | .error e => .error e)
       | (false, st) => .ok ((none : Option String), st))
    let st ← expectToken .BlockOn st
    let (members, st) ← class_body fuel st
    .ok (.Class name superClass members, st)

/-- `Parser::statement`: keyword dispatch on the lookahead; `None` when the
stream is exhausted. -/
def statement (fuel : Nat) (st : PState) :
    Except String (Option Statement × PState) :=
  match fuel with
  | 0 => .error "Out of fuel"
  | fuel+1 =>
    let look := handleLineTermination st
    match look.tokens with
    | Token.Var :: rest => do
      let (s, st) ← variable_declaration_statement fuel .Var ⟨rest, false⟩
      .ok (some s, st)
    | Token.Let :: rest => do
      let (s, st) ← variable_declaration_statement fuel .Let ⟨rest, false⟩
      .ok (some s, st)
    | Token.Const :: rest => do
      let (s, st) ← variable_declaration_statement fuel .Const ⟨rest, false⟩
      .ok (some s, st)
    | Token.Return :: rest => do
      let (s, st) ← return_statement fuel ⟨rest, false⟩
      .ok (some s, st)
    | Token.Function :: rest => do
      let (s, st) ← function_statement fuel ⟨rest, false⟩
      .ok (some s, st)
    | Token.Class :: rest => do
      let (s, st) ← class_statement fuel ⟨rest, false⟩
      .ok (some s, st)
    | Token.If :: rest => do
      let (s, st) ← if_statement fuel ⟨rest, false⟩
      .ok (some s, st)
    | Token.While :: rest => do
      let (s, st) ← while_statement fuel ⟨rest, false⟩
      .ok (some s, st)
    | Token.Semicolon :: rest => statement fuel ⟨rest, false⟩
    | [] => .ok (none, look)
    | _ :: _ => do
      let (s, st) ← expression_statement fuel look
      .ok (some s, st)

/-- The top-level statement loop of `parse`. -/
def parse_loop (fuel : Nat) (st : PState) :
    Except String (List Statement × PState) :=
  match fuel with
  | 0 => .error "Out of fuel"
  | fuel+1 => do
    let (sOpt, st) ← statement fuel st
    match sOpt with
    | some s => do
      let (rest, st) ← parse_loop fuel st
      .ok (s :: rest, st)
    | none => .ok ([], st)

end

/-- `parse` acting on an already-tokenized input. -/
def parse_tokens (fuel : Nat) (source : String) (tokens : List Token) :
    Except String Program := do
  let (body, _) ← parse_loop fuel ⟨tokens, false⟩
  .ok ⟨source, body⟩

/-! ## Code generator (`codegen.rs`)

The Rust `Generator` owns an append-only byte buffer plus the `minify`
flag and the indentation level `dent`; `indent`/`dedent` calls are
balanced, so each `to_code` method is embedded as a pure function from the
flag and current `dent` to the string it appends.  A fuel argument stands
in for Rust's unbounded recursion (it returns `""` when exhausted, which
never happens on the concrete inputs used below). -/

set_option maxHeartbeats 1600000

/-- The indentation written by `Generator::new_line`. -/
def indentString : Nat → String
  | 0 => ""
  | n+1 => "    " ++ indentString n

/-- `Generator::new_line`: nothing in minify mode, otherwise a newline and
four spaces per indentation level. -/
def new_line (minify : Bool) (dent : Nat) : String :=
  if minify then "" else "\n" ++ indentString dent

/-- `Generator::write_min`: the compact slice in minify mode, the pretty
slice otherwise. -/
def write_min (minify : Bool) (slice minslice : String) : String :=
  if minify then minslice else slice

/-- `Code::to_code` for `OperatorType`. -/
def OperatorType.to_code : OperatorType → String
  | .FatArrow => "=>"
  | .Accessor => "."
  | .New => "new"
  | .Increment => "++"
  | .Decrement => "--"
  | .LogicalNot => "!"
  | .BitwiseNot => "~"
  | .Typeof => "typeof"
  | .Void => "void"
  | .Delete => "delete"
  | .Multiplication => "*"
  | .Division => "/"
  | .Remainder => "%"
  | .Exponent => "**"
  | .Addition => "+"
  | .Substraction => "-"
  | .BitShiftLeft => "<<"
  | .BitShiftRight => ">>"
  | .UBitShiftRight => ">>>"
  | .Lesser => "<"
  | .LesserEquals => "<="
  | .Greater => ">"
  | .GreaterEquals => ">="
  | .Instanceof => "instanceof"
  | .In => "in"
  | .StrictEquality => "==="
  | .StrictInequality => "!=="
  | .Equality => "=="
  | .Inequality => "!="
  | .BitwiseAnd => "&"
  | .BitwiseXor => "^"
  | .BitwiseOr => "|"
  | .LogicalAnd => "&&"
  | .LogicalOr => "||"
  | .Conditional => "?"
  | .Assign => "="
  | .AddAssign => "+="
  | .SubstractAssign => "-="
  | .ExponentAssign => "**="
  | .MultiplyAssign => "*="
  | .DivideAssign => "/="
  | .RemainderAssign => "%="
  | .BSLAssign => "<<="
  | .BSRAssign => ">>="
  | .UBSRAssign => ">>>="
  | .BitAndAssign => "&="
  | .BitXorAssign => "^="
  | .BitOrAssign => "|="
  | .Spread => "..."

/-- `Code::to_code` for `LiteralValue`: minify rewrites `undefined`, `true`
and `false`; `null` is written as-is in both modes. -/
def LiteralValue.to_code (minify : Bool) : LiteralValue → String
  | .LiteralUndefined => write_min minify "undefined" "void 0"
  | .LiteralNull => "null"
  | .LiteralTrue => write_min minify "true" "!0"
  | .LiteralFalse => write_min minify "false" "!1"
  | .LiteralInteger num => Nat.repr num
  | .LiteralFloat num => num
  | .LiteralString string => string

/-- `Code::to_code` for `VariableDeclarationKind`. -/
def VariableDeclarationKind.to_code : VariableDeclarationKind → String
  | .Var => "var"
  | .Let => "let"
  | .Const => "const"

/-- `Code::to_code` for `Parameter`. -/
def Parameter.to_code (p : Parameter) : String := p.name

/-- `Generator::write_list` for parameters: the tail, each element preceded
by the comma separator. -/
def parameter_list_rest (minify : Bool) : List Parameter → String
  | [] => ""
  | p :: ps => write_min minify ", " "," ++ p.to_code ++ parameter_list_rest minify ps

/-- `Generator::write_list` for parameters. -/
def parameter_list_code (minify : Bool) : List Parameter → String
  | [] => ""
  | p :: ps => p.to_code ++ parameter_list_rest minify ps

mutual

/-- `Code::to_code` for `Expression`. -/
def Expression.to_code : Nat → Bool → Nat → Expression → String
  | 0, _, _, _ => ""
  | fuel+1, minify, dent, e =>
      match e with
      | .This => "this"
      | .Identifier ident => ident
      | .Literal literal => literal.to_code minify
      | .Array items => "[" ++ expression_list_code fuel minify dent items ++ "]"
      | .Sequence items => "(" ++ expression_list_code fuel minify dent items ++ ")"
      | .Object members =>
        "\x7b" ++ object_members_code fuel minify (dent+1) members ++
        new_line minify dent ++ "\x7d"
      | .Member object property =>
        Expression.to_code fuel minify dent object ++ "." ++ property
      | .ComputedMember object property =>
        Expression.to_code fuel minify dent object ++ "[" ++
        Expression.to_code fuel minify dent property ++ "]"
      | .Call callee arguments =>
        Expression.to_code fuel minify dent callee ++ "(" ++
        expression_list_code fuel minify dent arguments ++ ")"
      | .Binary left operator right =>
        (if Expression.binding_power left <
            Expression.binding_power (.Binary left operator right) then
          "(" ++ Expression.to_code fuel minify dent left ++ ")"
        else
          Expression.to_code fuel minify dent left) ++
        write_min minify " " "" ++ operator.to_code ++
        write_min minify " " "" ++
        Expression.to_code fuel minify dent right
      | .Prefix operator operand =>
        operator.to_code ++ Expression.to_code fuel minify dent operand
      | .Postfix operator operand =>
        Expression.to_code fuel minify dent operand ++ operator.to_code
      | .Conditional test consequent alternate =>
        Expression.to_code fuel minify dent test ++
        write_min minify " ? " "?" ++
        Expression.to_code fuel minify dent consequent ++
        write_min minify " : " ":" ++
        Expression.to_code fuel minify dent alternate
      | .ArrowFunction params body =>
        (match params with
         | [p] => p.to_code
         | ps => "(" ++ parameter_list_code minify ps ++ ")") ++
        write_min minify " => " "=>" ++
        (match body with
         | Statement.Expression value => Expression.to_code fuel minify dent value
         | b => Statement.to_code fuel minify dent b)
      | .Function name params body =>
        "function" ++
        (match name with
         | some n => " " ++ n
         | none => write_min minify " " "") ++
        "(" ++ parameter_list_code minify params ++
        write_min minify ") \x7b" ")\x7b" ++
        statement_block_code fuel minify dent body ++ "\x7d"
termination_by structural fuel _ _ _ => fuel

/-- `Generator::write_list` for expressions: the tail elements preceded by
the comma separator. -/
def expression_list_rest : Nat → Bool → Nat → List Expression → String
  | 0, _, _, _ => ""
  | fuel+1, minify, dent, items =>
      match items with
      | [] => ""
      | e :: es =>
        write_min minify ", " "," ++ Expression.to_code fuel minify dent e ++
        expression_list_rest fuel minify dent es
termination_by structural fuel _ _ _ => fuel

/-- `Generator::write_list` for expressions. -/
def expression_list_code : Nat → Bool → Nat → List Expression → String
  | 0, _, _, _ => ""
  | fuel+1, minify, dent, items =>
      match items with
      | [] => ""
      | e :: es =>
        Expression.to_code fuel minify dent e ++
        expression_list_rest fuel minify dent es
termination_by structural fuel _ _ _ => fuel

/-- The member loop in the `Object` arm of `Expression::to_code` (members
after the first, each preceded by a comma and a fresh line). -/
def object_members_rest : Nat → Bool → Nat → List ObjectMember → String
  | 0, _, _, _ => ""
  | fuel+1, minify, dent, members =>
      match members with
      | [] => ""
      | m :: ms =>
        "," ++ new_line minify dent ++ ObjectMember.to_code fuel minify dent m ++
        object_members_rest fuel minify dent ms
termination_by structural fuel _ _ _ => fuel

/-- The member loop in the `Object` arm of `Expression::to_code` (called
with `dent` already incremented). -/
def object_members_code : Nat → Bool → Nat → List ObjectMember → String
  | 0, _, _, _ => ""
  | fuel+1, minify, dent, members =>
      match members with
      | [] => ""
      | m :: ms =>
        new_line minify dent ++ ObjectMember.to_code fuel minify dent m ++
        object_members_rest fuel minify dent ms
termination_by structural fuel _ _ _ => fuel

/-- `Code::to_code` for `ObjectMember`. -/
def ObjectMember.to_code : Nat → Bool → Nat → ObjectMember → String
  | 0, _, _, _ => ""
  | fuel+1, minify, dent, m =>
      match m with
      | .Shorthand key => key
      | .Literal key value =>
        key ++ write_min minify ": " ":" ++
        Expression.to_code fuel minify dent value
      | .Computed key value =>
        "[" ++ Expression.to_code fuel minify dent key ++
        write_min minify "]: " "]:" ++
        Expression.to_code fuel minify dent value
      | .Method name params body =>
        name ++ "(" ++ parameter_list_code minify params ++
        write_min minify ") \x7b" ")\x7b" ++
        statement_block_code fuel minify dent body ++ "\x7d"
      | .ComputedMethod name params body =>
        "[" ++ Expression.to_code fuel minify dent name ++ "](" ++
        parameter_list_code minify params ++
        write_min minify ") \x7b" ")\x7b" ++
        statement_block_code fuel minify dent body ++ "\x7d"
termination_by structural fuel _ _ _ => fuel

/-- `Code::to_code` for `ClassMember`. -/
def ClassMember.to_code : Nat → Bool → Nat → ClassMember → String
  | 0, _, _, _ => ""
  | fuel+1, minify, dent, m =>
      match m with
      | .Constructor params body =>
        "constructor(" ++ parameter_list_code minify params ++
        write_min minify ") \x7b" ")\x7b" ++
        statement_block_code fuel minify dent body ++ "\x7d"
      | .Method is_static name params body =>
        (if is_static then "static " else "") ++ name ++ "(" ++
        parameter_list_code minify params ++
        write_min minify ") \x7b" ")\x7b" ++
        statement_block_code fuel minify dent body ++ "\x7d"
      | .Property is_static name value =>
        (if is_static then "static " else "") ++ name ++
        write_min minify " = " "=" ++
        Expression.to_code fuel minify dent value ++ ";"
termination_by structural fuel _ _ _ => fuel

/-- `Generator::write_block` for class members: each member preceded by a
fresh line one level deeper, then a fresh line at the outer level. -/
def class_block_code : Nat → Bool → Nat → List ClassMember → String
  | 0, _, _, _ => ""
  | fuel+1, minify, dent, members =>
      class_block_items fuel minify (dent+1) members ++ new_line minify dent
termination_by structural fuel _ _ _ => fuel

/-- The item loop of `Generator::write_block` for class members. -/
def class_block_items : Nat → Bool → Nat → List ClassMember → String
  | 0, _, _, _ => ""
  | fuel+1, minify, dent, members =>
      match members with
      | [] => ""
      | m :: ms =>
        new_line minify dent ++ ClassMember.to_code fuel minify dent m ++
        class_block_items fuel minify dent ms
termination_by structural fuel _ _ _ => fuel

/-- `Code::to_code` for `VariableDeclarator`. -/
def VariableDeclarator.to_code : Nat → Bool → Nat → VariableDeclarator → String
  | 0, _, _, _ => ""
  | fuel+1, minify, dent, d =>
      d.name ++
      (match d.value with
       | some value =>
         write_min minify " = " "=" ++ Expression.to_code fuel minify dent value
       | none => "")
termination_by structural fuel _ _ _ => fuel

/-- `Generator::write_list` for declarators: the tail elements preceded by
the comma separator. -/
def declarator_list_rest : Nat → Bool → Nat → List VariableDeclarator → String
  | 0, _, _, _ => ""
  | fuel+1, minify, dent, ds =>
      match ds with
      | [] => ""
      | d :: rest =>
        write_min minify ", " "," ++ VariableDeclarator.to_code fuel minify dent d ++
        declarator_list_rest fuel minify dent rest
termination_by structural fuel _ _ _ => fuel

/-- `Generator::write_list` for declarators. -/
def declarator_list_code : Nat → Bool → Nat → List VariableDeclarator → String
  | 0, _, _, _ => ""
  | fuel+1, minify, dent, ds =>
      match ds with
      | [] => ""
      | d :: rest =>
        VariableDeclarator.to_code fuel minify dent d ++
        declarator_list_rest fuel minify dent rest
termination_by structural fuel _ _ _ => fuel

/-- `Generator::write_declaration_or_expression` (used by the `for`
headers).  The source panics on any other statement; that arm is embedded
as the empty string since no claim exercises it. -/
def declaration_or_expression_code : Nat → Bool → Nat → Statement → String
  | 0, _, _, _ => ""
  | fuel+1, minify, dent, s =>
      match s with
      | .VariableDeclaration kind declarators =>
        kind.to_code ++ " " ++
        declarator_list_code fuel minify dent declarators
      | .Expression value => Expression.to_code fuel minify dent value
      | _ => ""
termination_by structural fuel _ _ _ => fuel

/-- `Code::to_code` for `Statement`. -/
def Statement.to_code : Nat → Bool → Nat → Statement → String
  | 0, _, _, _ => ""
  | fuel+1, minify, dent, s =>
      match s with
      | .Labeled label body =>
        label ++ write_min minify ": " ":" ++
        Statement.to_code fuel minify dent body
      | .Block body =>
        "\x7b" ++ statement_block_code fuel minify dent body ++ "\x7d"
      | .Transparent body => transparent_code fuel minify dent body
      | .Expression value =>
        Expression.to_code fuel minify dent value ++ ";"
      | .Return value =>
        "return" ++
        (match value with
         | some v => " " ++ Expression.to_code fuel minify dent v
         | none => "") ++ ";"
      | .Break label =>
        "break" ++
        (match label with
         | some l => " " ++ l
         | none => "") ++ ";"
      | .VariableDeclaration kind declarators =>
        kind.to_code ++ " " ++
        declarator_list_code fuel minify dent declarators ++ ";"
      | .Function name params body =>
        new_line minify dent ++ "function " ++ name ++ "(" ++
        parameter_list_code minify params ++
        write_min minify ") \x7b" ")\x7b" ++
        statement_block_code fuel minify dent body ++ "\x7d" ++
        new_line minify dent
      | .If test consequent alternate =>
        write_min minify "if (" "if(" ++
        Expression.to_code fuel minify dent test ++
        write_min minify ") " ")" ++
        Statement.to_code fuel minify dent consequent ++
        (match alternate with
         | some alt => " else " ++ Statement.to_code fuel minify dent alt
         | none => "")
      | .While test body =>
        write_min minify "while (" "while(" ++
        Expression.to_code fuel minify dent test ++
        write_min minify ") " ")" ++
        Statement.to_code fuel minify dent body
      | .For init test update body =>
        write_min minify "for (" "for(" ++
        (match init with
         | some i => declaration_or_expression_code fuel minify dent i
         | none => "") ++
        write_min minify "; " ";" ++
        (match test with
         | some t => Expression.to_code fuel minify dent t
         | none => "") ++
        write_min minify "; " ";" ++
        (match update with
         | some u => Expression.to_code fuel minify dent u
         | none => "") ++
        write_min minify ") " ")" ++
        Statement.to_code fuel minify dent body
      | .ForIn left right body =>
        write_min minify "for (" "for(" ++
        declaration_or_expression_code fuel minify dent left ++
        " in " ++ Expression.to_code fuel minify dent right ++
        write_min minify ") " ")" ++
        Statement.to_code fuel minify dent body
      | .ForOf left right body =>
        write_min minify "for (" "for(" ++
        declaration_or_expression_code fuel minify dent left ++
        " of " ++ Expression.to_code fuel minify dent right ++
        write_min minify ") " ")" ++
        Statement.to_code fuel minify dent body
      | .Class name superClass body =>
        new_line minify dent ++ "class " ++ name ++
        (match superClass with
         | some s => " extends " ++ s
         | none => "") ++
        write_min minify " \x7b" "\x7b" ++
        class_block_code fuel minify dent body ++ "\x7d" ++
        new_line minify dent
      | .Throw value =>
        "throw " ++ Expression.to_code fuel minify dent value ++ ";"
termination_by structural fuel _ _ _ => fuel

/-- `Generator::write_block` for statements: each item preceded by a fresh
line one level deeper, then a fresh line at the outer level. -/
def statement_block_code : Nat → Bool → Nat → List Statement → String
  | 0, _, _, _ => ""
  | fuel+1, minify, dent, body =>
      statement_block_items fuel minify (dent+1) body ++ new_line minify dent
termination_by structural fuel _ _ _ => fuel

/-- The item loop of `Generator::write_block` for statements. -/
def statement_block_items : Nat → Bool → Nat → List Statement → String
  | 0, _, _, _ => ""
  | fuel+1, minify, dent, body =>
      match body with
      | [] => ""
      | s :: ss =>
        new_line minify dent ++ Statement.to_code fuel minify dent s ++
        statement_block_items fuel minify dent ss
termination_by structural fuel _ _ _ => fuel

/-- The `Transparent` arm of `Statement::to_code`: children in place,
separated by fresh lines, no braces. -/
def transparent_code : Nat → Bool → Nat → List Statement → String
  | 0, _, _, _ => ""
  | fuel+1, minify, dent, body =>
      match body with
      | [] => ""
      | s :: ss =>
        Statement.to_code fuel minify dent s ++
        transparent_rest fuel minify dent ss
termination_by structural fuel _ _ _ => fuel

/-- Tail of the `Transparent` arm: children after the first, each preceded
by a fresh line. -/
def transparent_rest : Nat → Bool → Nat → List Statement → String
  | 0, _, _, _ => ""
  | fuel+1, minify, dent, body =>
      match body with
      | [] => ""
      | s :: ss =>
        new_line minify dent ++ Statement.to_code fuel minify dent s ++
        transparent_rest fuel minify dent ss
termination_by structural fuel _ _ _ => fuel
end

/-- The statement loop of `generate_code`: write each top-level statement
followed by `new_line()`. -/
def generate_body (fuel : Nat) (minify : Bool) : List Statement → String
  | [] => ""
  | s :: ss =>
    Statement.to_code fuel minify 0 s ++ new_line minify 0 ++
    generate_body fuel minify ss

/-- `codegen.rs` `generate_code`. -/
def generate_code (fuel : Nat) (program : Program) (minify : Bool) : String :=
  generate_body fuel minify program.body

/-! ## Tokenizer

Modelled from the spec: the tokenizer itself is not among the sources (the
spec specifies it only by its token alphabet, the `LineTermination` tokens
emitted at newline positions, and the absence of whitespace and comment
tokens), so the definitions below reconstruct a standard maximal-munch
lexer for that alphabet. -/

/-- Modelled from the spec: first character of an identifier. -/
def isIdentStart (c : Char) : Bool :=
  c.isAlpha || c = '_' || c = '$'

/-- Modelled from the spec: continuation character of an identifier. -/
def isIdentChar (c : Char) : Bool :=
  c.isAlphanum || c = '_' || c = '$'

/-- Numeric value of a digit run. -/
def digitsToNat (l : List Char) : Nat :=
  l.foldl (fun a c => a * 10 + (c.toNat - 48)) 0

/-- Modelled from the spec: keywords map to their dedicated tokens, the
literal keywords to `Literal` tokens, the word operators to `Operator`
tokens; everything else is an `Identifier`. -/
def keywordToken (s : String) : Token :=
  match s with
  | "var" => .Var
  | "let" => .Let
  | "const" => .Const
  | "return" => .Return
  | "function" => .Function
  | "class" => .Class
  | "extends" => .Extends
  | "static" => .Static
  | "if" => .If
  | "else" => .Else
  | "while" => .While
  | "for" => .For
  | "in" => .In
  | "of" => .Of
  | "break" => .Break
  | "throw" => .Throw
  | "this" => .This
  | "true" => .Literal .LiteralTrue
  | "false" => .Literal .LiteralFalse
  | "null" => .Literal .LiteralNull
  | "undefined" => .Literal .LiteralUndefined
  | "new" => .Operator .New
  | "typeof" => .Operator .Typeof
  | "void" => .Operator .Void
  | "delete" => .Operator .Delete
  | "instanceof" => .Operator .Instanceof
  | _ => .Identifier s

/-- Modelled from the spec: the tokenizer over the character list, with
maximal munch for identifiers, numbers and operators, `LineTermination` at
newlines, skipped spaces, and double-quoted strings kept with their quotes
(escape sequences are not needed by any claim). -/
def lexList : Nat → List Char → Except String (List Token)
  | 0, _ => .error "Out of fuel"
  | _, [] => .ok []
  | fuel+1, c :: rest =>
    if c = '\n' then do
      let ts ← lexList fuel rest
      .ok (Token.LineTermination :: ts)
    else if c = ' ' || c = '\t' || c = '\r' then lexList fuel rest
    else if isIdentStart c then do
      let name := String.mk (c :: rest.takeWhile isIdentChar)
      let ts ← lexList fuel (rest.dropWhile isIdentChar)
      .ok (keywordToken name :: ts)
    else if c.isDigit then
      let digits := c :: rest.takeWhile Char.isDigit
      let afterDigits := rest.dropWhile Char.isDigit
      match afterDigits with
      | '.' :: d :: rest2 =>
        if d.isDigit then do
          let frac := d :: rest2.takeWhile Char.isDigit
          let text := String.mk (digits ++ '.' :: frac)
          let ts ← lexList fuel (rest2.dropWhile Char.isDigit)
          .ok (Token.Literal (.LiteralFloat text) :: ts)
        else do
          let ts ← lexList fuel afterDigits
          .ok (Token.Literal (.LiteralInteger (digitsToNat digits)) :: ts)
      | _ => do
        let ts ← lexList fuel afterDigits
        .ok (Token.Literal (.LiteralInteger (digitsToNat digits)) :: ts)
    else if c = '"' then
      let inner := rest.takeWhile (fun ch => ch != '"')
      match rest.dropWhile (fun ch => ch != '"') with
      | '"' :: rest2 => do
        let text := String.mk ('"' :: (inner ++ ['"']))
        let ts ← lexList fuel rest2
        .ok (Token.Literal (.LiteralString text) :: ts)
      | _ => .error "Unterminated string literal"
    else if c.toNat = 123 then do
      let ts ← lexList fuel rest
      .ok (Token.BlockOn :: ts)
    else if c.toNat = 125 then do
      let ts ← lexList fuel rest
      .ok (Token.BlockOff :: ts)
    else
      match c, rest with
      | '(', r => do let ts ← lexList fuel r; .ok (Token.ParenOn :: ts)
      | ')', r => do let ts ← lexList fuel r; .ok (Token.ParenOff :: ts)
      | '[', r => do let ts ← lexList fuel r; .ok (Token.BracketOn :: ts)
      | ']', r => do let ts ← lexList fuel r; .ok (Token.BracketOff :: ts)
      | ';', r => do let ts ← lexList fuel r; .ok (Token.Semicolon :: ts)
      | ',', r => do let ts ← lexList fuel r; .ok (Token.Comma :: ts)
      | ':', r => do let ts ← lexList fuel r; .ok (Token.Colon :: ts)
      | '?', r => do let ts ← lexList fuel r; .ok (Token.Operator .Conditional :: ts)
      | '~', r => do let ts ← lexList fuel r; .ok (Token.Operator .BitwiseNot :: ts)
      | '.', '.' :: '.' :: r => do let ts ← lexList fuel r; .ok (Token.Operator .Spread :: ts)
      | '.', r => do let ts ← lexList fuel r; .ok (Token.Operator .Accessor :: ts)
      | '>', '>' :: '>' :: '=' :: r => do let ts ← lexList fuel r; .ok (Token.Operator .UBSRAssign :: ts)
      | '>', '>' :: '>' :: r => do let ts ← lexList fuel r; .ok (Token.Operator .UBitShiftRight :: ts)
      | '>', '>' :: '=' :: r => do let ts ← lexList fuel r; .ok (Token.Operator .BSRAssign :: ts)
      | '>', '>' :: r => do let ts ← lexList fuel r; .ok (Token.Operator .BitShiftRight :: ts)
      | '>', '=' :: r => do let ts ← lexList fuel r; .ok (Token.Operator .GreaterEquals :: ts)
      | '>', r => do let ts ← lexList fuel r; .ok (Token.Operator .Greater :: ts)
      | '<', '<' :: '=' :: r => do let ts ← lexList fuel r; .ok (Token.Operator .BSLAssign :: ts)
      | '<', '<' :: r => do let ts ← lexList fuel r; .ok (Token.Operator .BitShiftLeft :: ts)
      | '<', '=' :: r => do let ts ← lexList fuel r; .ok (Token.Operator .LesserEquals :: ts)
      | '<', r => do let ts ← lexList fuel r; .ok (Token.Operator .Lesser :: ts)
      | '=', '=' :: '=' :: r => do let ts ← lexList fuel r; .ok (Token.Operator .StrictEquality :: ts)
      | '=', '=' :: r => do let ts ← lexList fuel r; .ok (Token.Operator .Equality :: ts)
      | '=', '>' :: r => do let ts ← lexList fuel r; .ok (Token.Operator .FatArrow :: ts)
      | '=', r => do let ts ← lexList fuel r; .ok (Token.Operator .Assign :: ts)
      | '!', '=' :: '=' :: r => do let ts ← lexList fuel r; .ok (Token.Operator .StrictInequality :: ts)
      | '!', '=' :: r => do let ts ← lexList fuel r; .ok (Token.Operator .Inequality :: ts)
      | '!', r => do let ts ← lexList fuel r; .ok (Token.Operator .LogicalNot :: ts)
      | '*', '*' :: '=' :: r => do let ts ← lexList fuel r; .ok (Token.Operator .ExponentAssign :: ts)
      | '*', '*' :: r => do let ts ← lexList fuel r; .ok (Token.Operator .Exponent :: ts)
      | '*', '=' :: r => do let ts ← lexList fuel r; .ok (Token.Operator .MultiplyAssign :: ts)
      | '*', r => do let ts ← lexList fuel r; .ok (Token.Operator .Multiplication :: ts)
      | '+', '+' :: r => do let ts ← lexList fuel r; .ok (Token.Operator .Increment :: ts)
      | '+', '=' :: r => do let ts ← lexList fuel r; .ok (Token.Operator .AddAssign :: ts)
      | '+', r => do let ts ← lexList fuel r; .ok (Token.Operator .Addition :: ts)
      | '-', '-' :: r => do let ts ← lexList fuel r; .ok (Token.Operator .Decrement :: ts)
      | '-', '=' :: r => do let ts ← lexList fuel r; .ok (Token.Operator .SubstractAssign :: ts)
      | '-', r => do let ts ← lexList fuel r; .ok (Token.Operator .Substraction :: ts)
      | '/', '=' :: r => do let ts ← lexList fuel r; .ok (Token.Operator .DivideAssign :: ts)
      | '/', r => do let ts ← lexList fuel r; .ok (Token.Operator .Division :: ts)
      | '%', '=' :: r => do let ts ← lexList fuel r; .ok (Token.Operator .RemainderAssign :: ts)
      | '%', r => do let ts ← lexList fuel r; .ok (Token.Operator .Remainder :: ts)
      | '&', '&' :: r => do let ts ← lexList fuel r; .ok (Token.Operator .LogicalAnd :: ts)
      | '&', '=' :: r => do let ts ← lexList fuel r; .ok (Token.Operator .BitAndAssign :: ts)
      | '&', r => do let ts ← lexList fuel r; .ok (Token.Operator .BitwiseAnd :: ts)
      | '|', '|' :: r => do let ts ← lexList fuel r; .ok (Token.Operator .LogicalOr :: ts)
      | '|', '=' :: r => do let ts ← lexList fuel r; .ok (Token.Operator .BitOrAssign :: ts)
      | '|', r => do let ts ← lexList fuel r; .ok (Token.Operator .BitwiseOr :: ts)
      | '^', '=' :: r => do let ts ← lexList fuel r; .ok (Token.Operator .BitXorAssign :: ts)
      | '^', r => do let ts ← lexList fuel r; .ok (Token.Operator .BitwiseXor :: ts)
      | _, _ => .error "LexicalError"

/-- Modelled from the spec: the tokenizer over a source string (each
lexing step consumes at least one character, so the string length bounds
the fuel). -/
def lexString (source : String) : Except String (List Token) :=
  lexList (source.length + 1) source.data

/-- `parse` over source text: tokenize, then run the parser. -/
def parse (fuel : Nat) (source : String) : Except String Program := do
  let tokens ← lexString source
  parse_tokens fuel source tokens

/-- One parse/generate round: `generate(parse(s), minify)`. -/
def compile (fuel : Nat) (source : String) (minify : Bool) :
    Except String String := do
  let program ← parse fuel source
  .ok (generate_code fuel program minify)

/-- The operator precedence table exactly as the spec words it (higher
binds tighter).  This is a second definition written from the spec's
table, to be compared against `OperatorType.binding_power` from the
source. -/
def spec_binding_power : OperatorType → Nat
  | .Accessor => 18
  | .FatArrow => 18
  | .New => 17
  | .Increment => 16
  | .Decrement => 16
  | .LogicalNot => 15
  | .BitwiseNot => 15
  | .Typeof => 15
  | .Void => 15
  | .Delete => 15
  | .Multiplication => 14
  | .Division => 14
  | .Remainder => 14
  | .Exponent => 14
  | .Addition => 13
  | .Substraction => 13
  | .BitShiftLeft => 12
  | .BitShiftRight => 12
  | .UBitShiftRight => 12
  | .Lesser => 11
  | .LesserEquals => 11
  | .Greater => 11
  | .GreaterEquals => 11
  | .Instanceof => 11
  | .In => 11
  | .StrictEquality => 10
  | .StrictInequality => 10
  | .Equality => 10
  | .Inequality => 10
  | .BitwiseAnd => 9
  | .BitwiseXor => 8
  | .BitwiseOr => 7
  | .LogicalAnd => 6
  | .LogicalOr => 5
  | .Conditional => 4
  | .Assign => 3
  | .AddAssign => 3
  | .SubstractAssign => 3
  | .ExponentAssign => 3
  | .MultiplyAssign => 3
  | .DivideAssign => 3
  | .RemainderAssign => 3
  | .BSLAssign => 3
  | .BSRAssign => 3
  | .UBSRAssign => 3
  | .BitAndAssign => 3
  | .BitXorAssign => 3
  | .BitOrAssign => 3
  | .Spread => 1

/-! ## Helper lemmas -/

/-- Reduction of `Except.bind` on a success. -/
@[simp] theorem ok_bind {α β : Type} (a : α) (f : α → Except String β) :
    (Except.ok a >>= f) = f a := rfl

/-- Reduction of `Except.bind` on an error. -/
@[simp] theorem error_bind {α β : Type} (e : String) (f : α → Except String β) :
    ((Except.error e : Except String α) >>= f) = .error e := rfl

/-- After the line-termination skip, the head of the token list is never a
`LineTermination`. -/
theorem handleLT_head_ne (toks : List Token) (asi : Bool) :
    (handleLT toks asi).tokens.head? ≠ some Token.LineTermination := by
  induction toks generalizing asi with
  | nil => simp [handleLT]
  | cons t rest ih =>
    by_cases h : t = Token.LineTermination
    · simpa [handleLT, h] using ih true
    · simp [handleLT, h]

/-- The line-termination skip is idempotent. -/
theorem handleLT_idem (toks : List Token) (asi : Bool) :
    handleLineTermination (handleLT toks asi) = handleLT toks asi := by
  induction toks generalizing asi with
  | nil => rfl
  | cons t rest ih =>
    by_cases h : t = Token.LineTermination
    · simpa [handleLT, h] using ih true
    · simp [handleLineTermination, handleLT, h]

/-- `handle_line_termination` is idempotent on parser states. -/
theorem handleLineTermination_idem (st : PState) :
    handleLineTermination (handleLineTermination st) = handleLineTermination st :=
  handleLT_idem st.tokens st.allow_asi

/-- `statement_end` returns exactly the statement it was given. -/
theorem statement_end_ok_value (v : Statement) (st : PState) (s : Statement)
    (st' : PState) (h : statement_end v st = .ok (s, st')) : s = v := by
  unfold statement_end at h
  rcases hL : (handleLineTermination st).tokens with _ | ⟨t, rest⟩
  · rw [hL] at h
    simp only [List.head?_nil, Except.ok.injEq, Prod.mk.injEq] at h
    exact h.1.symm
  · rw [hL] at h
    cases t <;> split at h <;> (try split at h) <;> simp_all

/-- A successful `sequence_params` run is exactly the identifier-wise image
of a name list. -/
theorem sequence_params_ok (es : List Expression) (ps : List Parameter)
    (h : sequence_params es = .ok ps) :
    ∃ names : List String, es = names.map Expression.Identifier ∧
      ps = names.map Parameter.mk := by
  induction es generalizing ps with
  | nil =>
    simp only [sequence_params, Except.ok.injEq] at h
    exact ⟨[], rfl, h.symm⟩
  | cons x rest ih =>
    cases x <;> simp only [sequence_params] at h <;> try simp at h
    case Identifier n =>
      rcases hr : sequence_params rest with e | ps' <;> rw [hr] at h
      · simp at h
      · simp only [Except.ok.injEq] at h
        obtain ⟨names, h1, h2⟩ := ih ps' hr
        exact ⟨n :: names, by simp [h1], by simp [← h, h2]⟩

/-- `sequence_params` fails on any list containing a non-identifier. -/
theorem sequence_params_err (es : List Expression)
    (hbad : ∃ x ∈ es, ∀ n, x ≠ Expression.Identifier n) :
    sequence_params es = .error "Cannot cast expression to a parameter" := by
  induction es with
  | nil => simp at hbad
  | cons x rest ih =>
    obtain ⟨y, hy, hni⟩ := hbad
    cases x
    case Identifier n =>
      have hrest : ∃ z ∈ rest, ∀ n, z ≠ Expression.Identifier n := by
        rcases List.mem_cons.mp hy with h1 | h2
        · exact absurd h1 (hni n)
        · exact ⟨y, h2, hni⟩
      simp [sequence_params, ih hrest]
    all_goals simp [sequence_params]

/-- A successful `arrow_function_expression` run returns an
`ArrowFunction` whose parameters come from `arrow_params`. -/
theorem arrow_function_ok_shape (fuel : Nat) (p : Option Expression)
    (st : PState) (e : Expression) (st' : PState)
    (h : arrow_function_expression fuel p st = .ok (e, st')) :
    ∃ ps body, arrow_params p = .ok ps ∧ e = .ArrowFunction ps body := by
  cases fuel with
  | zero => simp [arrow_function_expression] at h
  | succ f =>
    unfold arrow_function_expression at h
    rcases hp : arrow_params p with msg | ps <;> rw [hp] at h
    · simp at h
    · simp only [ok_bind] at h
      split at h
      · rcases hb : block_body f (handleLineTermination st) with msg | ⟨b, stb⟩ <;>
          rw [hb] at h
        · simp at h
        · simp only [ok_bind, Except.ok.injEq, Prod.mk.injEq] at h
          exact ⟨ps, .Block b, rfl, h.1.symm⟩
      · rcases hb : expression f 0 (handleLineTermination st) with msg | ⟨b, stb⟩ <;>
          rw [hb] at h
        · simp at h
        · simp only [ok_bind, Except.ok.injEq, Prod.mk.injEq] at h
          exact ⟨ps, .Expression b, rfl, h.1.symm⟩

/-- A successful declarator loop yields a non-empty list whose declarators
all carry initializers. -/
theorem variable_declarators_ok (fuel : Nat) (st : PState)
    (ds : List VariableDeclarator) (st' : PState)
    (h : variable_declarators fuel st = .ok (ds, st')) :
    ds ≠ [] ∧ ∀ d ∈ ds, d.value.isSome = true := by
  induction fuel generalizing st ds st' with
  | zero => simp [variable_declarators] at h
  | succ f ih =>
    unfold variable_declarators at h
    rcases h1 : expectIdentifier st with e | ⟨name, st1⟩ <;> rw [h1] at h
    · simp at h
    · simp only [ok_bind] at h
      rcases h2 : expectToken (.Operator .Assign) st1 with e | st2 <;> rw [h2] at h
      · simp at h
      · simp only [ok_bind] at h
        rcases h3 : expression f 0 st2 with e | ⟨v, st3⟩ <;> rw [h3] at h
        · simp at h
        · simp only [ok_bind] at h
          rcases hA : allowTok .Comma st3 with ⟨b, st4⟩
          rw [hA] at h
          cases b
          · dsimp only at h
            simp only [Except.ok.injEq, Prod.mk.injEq] at h
            refine ⟨by simp [← h.1], ?_⟩
            intro d hd
            rw [← h.1] at hd
            simp only [List.mem_singleton] at hd
            simp [hd, VariableDeclarator.value]
          · dsimp only at h
            rcases h5 : variable_declarators f st4 with e | ⟨rest, st5⟩ <;>
              rw [h5] at h
            · simp at h
            · simp only [ok_bind, Except.ok.injEq, Prod.mk.injEq] at h
              obtain ⟨hne, hall⟩ := ih st4 rest st5 h5
              refine ⟨by simp [← h.1], ?_⟩
              intro d hd
              rw [← h.1] at hd
              rcases List.mem_cons.mp hd with h6 | h6
              · simp [h6, VariableDeclarator.value]
              · exact hall d h6

/-! ## Claim theorems -/

/-- C1: For every `Binary` expression node, the generator wraps the left
operand in parentheses exactly when the left operand's binding power is
strictly below the `Binary` node's own binding power (which is its
operator's binding power), and it emits the right operand bare, never
adding parentheses around it. -/
theorem claim1_binary_left_parenthesization (fuel : Nat) (minify : Bool)
    (dent : Nat) (left : Expression) (op : OperatorType) (right : Expression) :
    Expression.to_code (fuel+1) minify dent (.Binary left op right) =
      (if left.binding_power < op.binding_power then
        "(" ++ Expression.to_code fuel minify dent left ++ ")"
      else
        Expression.to_code fuel minify dent left) ++
      write_min minify " " "" ++ op.to_code ++ write_min minify " " "" ++
      Expression.to_code fuel minify dent right := rfl

/-- C2 (code bug): one minified parse/generate round trip is not a normal
form: on the program `undefined`, the first round yields `void 0;` but the
second round yields `void0;` (the generator writes no space between a word
prefix operator and its operand). -/
theorem claim2_roundtrip_not_idempotent :
    compile 100 "undefined" true = .ok "void 0;" ∧
    (compile 100 "undefined" true).bind (fun t => compile 100 t true) =
      .ok "void0;" ∧
    ("void 0;" : String) ≠ "void0;" :=
  ⟨rfl, rfl, by decide⟩

/-- C3: `OperatorType::binding_power` returns exactly the spec's
precedence-table value on every operator variant. -/
theorem claim3_binding_power_table :
    ∀ op : OperatorType, op.binding_power = spec_binding_power op := by
  intro op
  cases op <;> rfl

/-- C5 counterexample: a bare `return` followed by a statement boundary
does not parse successfully with no value; the parser fails on the token
stream `return ;`. -/
theorem claim5_bare_return_counterexample :
    parse_tokens 50 "return;" [Token.Return, Token.Semicolon] =
      .error "Unexpected token" := rfl

/-- C8: boolean and undefined literal generation depends only on the
minify flag: minified `true`/`false`/`undefined` become `!0`/`!1`/`void 0`,
pretty mode writes them verbatim, and `null` is `null` in both modes. -/
theorem claim8_literal_minify_rewrites :
    ∀ minify : Bool,
      LiteralValue.to_code true .LiteralTrue = "!0" ∧
      LiteralValue.to_code true .LiteralFalse = "!1" ∧
      LiteralValue.to_code true .LiteralUndefined = "void 0" ∧
      LiteralValue.to_code false .LiteralTrue = "true" ∧
      LiteralValue.to_code false .LiteralFalse = "false" ∧
      LiteralValue.to_code false .LiteralUndefined = "undefined" ∧
      LiteralValue.to_code minify .LiteralNull = "null" := by
  intro minify
  refine ⟨rfl, rfl, rfl, rfl, rfl, rfl, ?_⟩
  cases minify <;> rfl

/-- C4: after a statement that requires a semicolon, the accepted
terminators are exactly a `Semicolon` (which is consumed), a `ParenOff`, a
`BlockOff` or the end of the stream (none of which are consumed), or — when
`allow_asi` is set — any token at all; with any other lookahead and
`allow_asi` unset, parsing fails. -/
theorem claim4_statement_terminator (value : Statement) (st : PState) :
    ((statement_end value st).isOk = true ↔
      ((handleLineTermination st).tokens.head? = some Token.Semicolon ∨
       (handleLineTermination st).tokens.head? = some Token.ParenOff ∨
       (handleLineTermination st).tokens.head? = some Token.BlockOff ∨
       (handleLineTermination st).tokens.head? = none ∨
       (handleLineTermination st).allow_asi = true)) ∧
    ((handleLineTermination st).tokens.head? = some Token.Semicolon →
      statement_end value st =
        .ok (value, ⟨(handleLineTermination st).tokens.tail, false⟩)) ∧
    (((handleLineTermination st).tokens.head? = some Token.ParenOff ∨
      (handleLineTermination st).tokens.head? = some Token.BlockOff ∨
      (handleLineTermination st).tokens.head? = none) →
      statement_end value st = .ok (value, handleLineTermination st)) ∧
    (∀ t, (handleLineTermination st).tokens.head? = some t →
      t ≠ Token.Semicolon → t ≠ Token.ParenOff → t ≠ Token.BlockOff →
      ((handleLineTermination st).allow_asi = true →
        statement_end value st = .ok (value, handleLineTermination st)) ∧
      ((handleLineTermination st).allow_asi = false →
        (statement_end value st).isOk = false)) := by
  have hid := handleLineTermination_idem st
  unfold statement_end consume
  rcases hL : handleLineTermination st with ⟨toks, asi⟩
  rw [hL] at hid
  rw [hid]
  cases toks with
  | nil => simp [Except.isOk, Except.toBool]
  | cons t rest => cases t <;> cases asi <;> simp [Except.isOk, Except.toBool]

/-- C4 witness: a semicolon terminator is consumed, and a non-terminator
lookahead with `allow_asi` unset is fatal. -/
theorem claim4_statement_terminator_witness :
    statement_end (Statement.Break none) ⟨[Token.Semicolon], false⟩ =
      .ok (Statement.Break none, ⟨[], false⟩) ∧
    (statement_end (Statement.Break none) ⟨[Token.This], false⟩).isOk = false :=
  ⟨(claim4_statement_terminator (Statement.Break none)
      ⟨[Token.Semicolon], false⟩).2.1 rfl,
   ((claim4_statement_terminator (Statement.Break none)
      ⟨[Token.This], false⟩).2.2.2 Token.This rfl (by decide) (by decide)
        (by decide)).2 rfl⟩

/-- C5 (amended): when the parser dispatches on a `Return` token it always
parses an expression: every successful `return_statement` run produced
`Return` with `value = Some(expression(0))`; there is no bare-`return`
form. -/
theorem claim5_return_parses_expression (fuel : Nat) (st : PState)
    (s : Statement) (st2 : PState)
    (h : return_statement fuel st = .ok (s, st2)) :
    ∃ e st1, expression (fuel - 1) 0 st = .ok (e, st1) ∧
      s = Statement.Return (some e) ∧
      statement_end (Statement.Return (some e)) st1 = .ok (s, st2) := by
  cases fuel with
  | zero => simp [return_statement] at h
  | succ f =>
    unfold return_statement at h
    rcases he : expression f 0 st with e | ⟨ex, st1⟩ <;> rw [he] at h
    · simp at h
    · simp only [ok_bind] at h
      have hv := statement_end_ok_value _ _ _ _ h
      exact ⟨ex, st1, he, hv, hv ▸ h⟩

/-- C5 witness: `return 1` parses to `Return` with the literal value. -/
theorem claim5_return_parses_expression_witness :
    ∃ e st1,
      expression 9 0 ⟨[Token.Literal (.LiteralInteger 1)], false⟩ =
        .ok (e, st1) ∧
      Statement.Return (some (.Literal (.LiteralInteger 1))) =
        Statement.Return (some e) ∧
      statement_end (Statement.Return (some e)) st1 =
        .ok (Statement.Return (some (.Literal (.LiteralInteger 1))),
          ⟨[], false⟩) :=
  claim5_return_parses_expression 10 ⟨[Token.Literal (.LiteralInteger 1)], false⟩
    (Statement.Return (some (.Literal (.LiteralInteger 1)))) ⟨[], false⟩ rfl

/-- C6: in the left-denotation loop, whenever `allow_asi` is set and the
lookahead is `ParenOn`, `BracketOn`, `Operator(/)`, `Operator(+)` or
`Operator(-)`, the loop terminates immediately without consuming that
token. -/
theorem claim6_asi_gate (fuel lbp : Nat) (left : Expression) (st : PState)
    (hGate : asiGate (handleLineTermination st).tokens.head? = true)
    (hAsi : (handleLineTermination st).allow_asi = true) :
    expression_loop (fuel+1) lbp left st = .ok (left, handleLineTermination st) := by
  unfold expression_loop
  rw [hGate, hAsi]
  rfl

/-- C6 witness: after a line termination, a lookahead `ParenOn` stops the
loop with the `(` still unconsumed. -/
theorem claim6_asi_gate_witness :
    expression_loop 5 0 Expression.This
        ⟨[Token.LineTermination, Token.ParenOn], false⟩ =
      .ok (Expression.This, ⟨[Token.ParenOn], true⟩) :=
  claim6_asi_gate 4 0 Expression.This
    ⟨[Token.LineTermination, Token.ParenOn], false⟩ rfl rfl

/-- C7: fat-arrow parameter coercion: no left expression yields `[]`; an
identifier yields that single parameter; a sequence of identifiers yields
one parameter per element; a sequence containing a non-identifier, or any
other left expression shape, is a fatal error. -/
theorem claim7_arrow_parameter_coercion :
    (∀ fuel st e st',
      arrow_function_expression fuel none st = .ok (e, st') →
      ∃ body, e = .ArrowFunction [] body) ∧
    (∀ fuel st name e st',
      arrow_function_expression fuel (some (.Identifier name)) st =
        .ok (e, st') →
      ∃ body, e = .ArrowFunction [⟨name⟩] body) ∧
    (∀ fuel st es e st',
      arrow_function_expression fuel (some (.Sequence es)) st = .ok (e, st') →
      ∃ (names : List String) (body : Statement),
        es = names.map Expression.Identifier ∧
        e = .ArrowFunction (names.map Parameter.mk) body) ∧
    (∀ fuel st es, (∃ x ∈ es, ∀ n, x ≠ Expression.Identifier n) →
      arrow_function_expression (fuel+1) (some (.Sequence es)) st =
        .error "Cannot cast expression to a parameter") ∧
    (∀ fuel st p, (∀ n, p ≠ Expression.Identifier n) →
      (∀ es, p ≠ Expression.Sequence es) →
      arrow_function_expression (fuel+1) (some p) st =
        .error "Cannot cast expression to parameters") := by
  refine ⟨?_, ?_, ?_, ?_, ?_⟩
  · intro fuel st e st' h
    obtain ⟨ps, body, hp, he⟩ := arrow_function_ok_shape fuel none st e st' h
    simp only [arrow_params, Except.ok.injEq] at hp
    exact ⟨body, hp ▸ he⟩
  · intro fuel st name e st' h
    obtain ⟨ps, body, hp, he⟩ := arrow_function_ok_shape fuel _ st e st' h
    simp only [arrow_params, Except.ok.injEq] at hp
    exact ⟨body, hp ▸ he⟩
  · intro fuel st es e st' h
    obtain ⟨ps, body, hp, he⟩ := arrow_function_ok_shape fuel _ st e st' h
    simp only [arrow_params] at hp
    obtain ⟨names, h1, h2⟩ := sequence_params_ok es ps hp
    exact ⟨names, body, h1, h2 ▸ he⟩
  · intro fuel st es hbad
    unfold arrow_function_expression
    have : arrow_params (some (.Sequence es)) =
        .error "Cannot cast expression to a parameter" := by
      simp [arrow_params, sequence_params_err es hbad]
    rw [this, error_bind]
  · intro fuel st p hni hns
    unfold arrow_function_expression
    have : arrow_params (some p) =
        .error "Cannot cast expression to parameters" := by
      cases p <;> first
        | exact absurd rfl (hni _)
        | exact absurd rfl (hns _)
        | rfl
    rw [this, error_bind]

/-- C7 witness: a single identifier becomes the single parameter, and a
non-coercible left expression (`this`) is fatal. -/
theorem claim7_arrow_parameter_coercion_witness :
    (∃ body,
      Expression.ArrowFunction [Parameter.mk "x"]
          (Statement.Expression (.Identifier "y")) =
        Expression.ArrowFunction [Parameter.mk "x"] body) ∧
    arrow_function_expression 5 (some Expression.This) ⟨[], false⟩ =
      .error "Cannot cast expression to parameters" :=
  ⟨claim7_arrow_parameter_coercion.2.1 10 ⟨[Token.Identifier "y"], false⟩ "x"
      (Expression.ArrowFunction [Parameter.mk "x"]
        (Statement.Expression (.Identifier "y"))) ⟨[], false⟩ rfl,
   claim7_arrow_parameter_coercion.2.2.2.2 4 ⟨[], false⟩ Expression.This
      (by intro n; simp) (by intro es; simp)⟩

/-- C9: every successfully parsed variable declaration has a non-empty
declarator list whose declarators all carry initializers, and parsing
fails when the `=` initializer is absent. -/
theorem claim9_variable_declaration_invariant :
    (∀ fuel kind st s st',
      variable_declaration_statement fuel kind st = .ok (s, st') →
      ∃ ds, s = Statement.VariableDeclaration kind ds ∧ ds ≠ [] ∧
        ∀ d ∈ ds, d.value.isSome = true) ∧
    (∀ fuel kind st name st1 t st2,
      consume st = .ok (Token.Identifier name, st1) →
      consume st1 = .ok (t, st2) →
      t ≠ Token.Operator OperatorType.Assign →
      (variable_declaration_statement fuel kind st).isOk = false) := by
  constructor
  · intro fuel kind st s st' h
    cases fuel with
    | zero => simp [variable_declaration_statement] at h
    | succ f =>
      unfold variable_declaration_statement at h
      rcases hd : variable_declarators f st with e | ⟨ds0, st1⟩ <;> rw [hd] at h
      · simp at h
      · simp only [ok_bind] at h
        have hv := statement_end_ok_value _ _ _ _ h
        exact ⟨ds0, hv, variable_declarators_ok f st ds0 st1 hd⟩
  · intro fuel kind st name st1 t st2 hc1 hc2 ht
    have e1 : expectIdentifier st = .ok (name, st1) := by
      simp [expectIdentifier, hc1]
    have e2 : expectToken (.Operator .Assign) st1 = .error "Unexpected token" := by
      simp [expectToken, hc2, ht]
    cases fuel with
    | zero => rfl
    | succ f =>
      cases f with
      | zero => rfl
      | succ g =>
        simp [variable_declaration_statement, variable_declarators, e1, e2,
          Except.isOk, Except.toBool]

/-- C9 witness: `x = 1` parses into a single initialized declarator, and
omitting the `=` is fatal. -/
theorem claim9_variable_declaration_invariant_witness :
    (∃ ds,
      Statement.VariableDeclaration VariableDeclarationKind.Var
          [VariableDeclarator.mk "x" (some (.Literal (.LiteralInteger 1)))] =
        Statement.VariableDeclaration VariableDeclarationKind.Var ds ∧
      ds ≠ [] ∧ ∀ d ∈ ds, d.value.isSome = true) ∧
    (variable_declaration_statement 10 VariableDeclarationKind.Var
      ⟨[Token.Identifier "x", Token.Semicolon], false⟩).isOk = false :=
  ⟨claim9_variable_declaration_invariant.1 10 VariableDeclarationKind.Var
      ⟨[Token.Identifier "x", Token.Operator .Assign,
        Token.Literal (.LiteralInteger 1)], false⟩
      (Statement.VariableDeclaration VariableDeclarationKind.Var
        [VariableDeclarator.mk "x" (some (.Literal (.LiteralInteger 1)))])
      ⟨[], false⟩ rfl,
   claim9_variable_declaration_invariant.2 10 VariableDeclarationKind.Var
      ⟨[Token.Identifier "x", Token.Semicolon], false⟩ "x"
      ⟨[Token.Semicolon], false⟩ Token.Semicolon ⟨[], false⟩ rfl rfl
      (by decide)⟩

/-- C10: with minify set, `new_line` writes no bytes, so `generate_code`
is exactly the concatenation of the codes of the top-level statements in
order, with no separator bytes and no indentation. -/
theorem claim10_minify_concatenation :
    (∀ dent, new_line true dent = "") ∧
    ∀ (fuel : Nat) (program : Program),
      generate_code fuel program true =
        program.body.foldr
          (fun s acc => Statement.to_code fuel true 0 s ++ acc) "" := by
  refine ⟨fun _ => rfl, ?_⟩
  intro fuel program
  obtain ⟨src, body⟩ := program
  show generate_body fuel true body = _
  induction body with
  | nil => rfl
  | cons s ss ih =>
    simp only [generate_body, new_line, if_pos, List.foldr_cons, ih,
      String.append_empty]

end Badger
